import Mathlib

/-!
Verification of the friendsocial scheduling engine
(`scheduled_activities/scheduled_activity_service.go`) against its
natural-language specification.

Shallow embedding conventions:
* Instants are minutes since an arbitrary epoch (`Nat`); a calendar day `d`
  covers the half-open minute range `[d*1440, (d+1)*1440)` so the SQL
  `DATE(scheduled_at)` projection is `t / 1440`.
* Weekdays follow Go's `time.Weekday` numbering (Sunday = 0 … Saturday = 6);
  the weekday of calendar day `d` is `d % 7` (the epoch day is a Sunday).
* The relational store is a record of row lists; a `pgx` transaction buffers
  its writes and applies them only at commit, so an operation that writes only
  through its transaction is modelled as a function returning the result
  together with the post-state (equal to the pre-state on every error path).
* Fallible database steps are driven by explicit fault flags so that the
  rollback behaviour of each failure point can be stated and proved.
* Go errors are untyped wrapped strings; we model an error by the
  `fmt.Errorf` site that produced it, one constructor per site used here.
-/

namespace FriendSocial

/-- A row of `scheduled_activities`
(`ScheduledActivity` in `scheduled_activity_service.go`). -/
structure Occ where
  id : Int
  activityId : Int
  isActive : Bool
  scheduledAt : Nat
  prefId : Option Int
  deriving Repr, DecidableEq

/-- A row of `activity_participants` as written by the scheduling engine
(user_id, scheduled_activity_id, invite_status); the serial `id` column is
never read or written by the operations under study and is omitted. -/
structure Part where
  userId : Int
  schedId : Int
  inviteStatus : String
  deriving Repr, DecidableEq

/-- A row of `user_activity_preferences_participants` (the roster table). -/
structure PrefParticipant where
  prefId : Int
  userId : Int
  deriving Repr, DecidableEq

/-- The committed database state seen by the scheduling service, with the
sequence counter backing `scheduled_activities.id`. -/
structure Db where
  occs : List Occ
  parts : List Part
  prefParts : List PrefParticipant
  nextOccId : Int
  deriving Repr, DecidableEq

/-- `user_activity_preferences.UserActivityPreference`.  `frequency` is kept
as a `Nat`: every claim under study assumes the spec invariant N ≥ 1, and
Go's `%` on a non-positive frequency would panic or be meaningless. -/
structure Preference where
  id : Int
  userId : Int
  activityId : Int
  frequency : Nat
  frequencyPeriod : String
  daysOfWeek : String
  deriving Repr, DecidableEq

/-- One constructor per `fmt.Errorf` site reached by the modelled code. -/
inductive Err where
  | invalidDayOfWeek
  | invalidTimeZone
  | invalidStartTime
  | estTimeNotFound
  | failedBatchInsert
  | failedFetchParticipants
  | failedBatchInsertParticipants
  | failedCommit
  | failedGetPrefId
  deriving Repr, DecidableEq

/-- `DATE(scheduled_at)`: the calendar day containing minute instant `t`. -/
def dateOf (t : Nat) : Nat := t / 1440

/-- The loop body of `checkIfUserIsAvailable`: walk the rows returned for the
candidate date; resolve each activity's estimated duration (`getEstimatedTime`,
an error when the activity row is missing) and report unavailable on the first
half-open overlap `activityStart < desiredEnd && activityEnd > desiredStart`. -/
def availLoop (est : Int → Option Nat) (desiredStart desiredEnd : Nat) :
    List Occ → Except Err Bool
  | [] => .ok true
  | o :: rest =>
    match est o.activityId with
    | none => .error .estTimeNotFound
    | some dur =>
      if o.scheduledAt < desiredEnd && desiredStart < o.scheduledAt + dur then
        .ok false
      else
        availLoop est desiredStart desiredEnd rest

/-- `checkIfUserIsAvailable`: the desired window `[startMin, endMin)` is pinned
to the candidate date, and the rows considered are exactly those whose
`DATE(scheduled_at)` equals the candidate date — no other column filters. -/
def checkIfUserIsAvailable (est : Int → Option Nat) (occs : List Occ)
    (date startMin endMin : Nat) : Except Err Bool :=
  availLoop est (date * 1440 + startMin) (date * 1440 + endMin)
    (occs.filter (fun o => dateOf o.scheduledAt == date))

/-- Propositional form of the overlap test for one existing row. -/
def OverlapsWindow (est : Int → Option Nat) (date startMin endMin : Nat)
    (o : Occ) : Prop :=
  dateOf o.scheduledAt = date ∧
    ∃ dur, est o.activityId = some dur ∧
      o.scheduledAt < date * 1440 + endMin ∧
      date * 1440 + startMin < o.scheduledAt + dur

instance (est : Int → Option Nat) (date startMin endMin : Nat) (o : Occ) :
    Decidable (OverlapsWindow est date startMin endMin o) := by
  unfold OverlapsWindow
  infer_instance

/-- The row `CreateMultiple` builds for an accepted date: active, no owning
preference, scheduled at the date's start time, id from the sequence. -/
def adhocRow (activityId : Int) (startMin : Nat) (db : Db) (date : Nat) : Occ :=
  { id := db.nextOccId, activityId := activityId, isActive := true,
    scheduledAt := date * 1440 + startMin, prefId := none }

/-- The effect of `Create`'s `INSERT … RETURNING id`: the row is durably
committed at once (no enclosing transaction on this path). -/
def insertOcc (db : Db) (o : Occ) : Db :=
  { db with occs := db.occs ++ [o], nextOccId := db.nextOccId + 1 }

/-- The loop of `CreateMultiple` over the (already parsed) candidate dates:
a date whose local midnight is before "now" is skipped; a date failing the
availability check is skipped; otherwise `Create` inserts one row — through
`service.db` directly, not a transaction, so the insert is durable at once
and later iterations see it.  Any availability error aborts the call. -/
def createMultipleLoop (est : Int → Option Nat) (now : Nat) (activityId : Int)
    (startMin endMin : Nat) : List Nat → Db → Except Err (List Occ) × Db
  | [], db => (.ok [], db)
  | date :: rest, db =>
    if date * 1440 < now then
      createMultipleLoop est now activityId startMin endMin rest db
    else
      match checkIfUserIsAvailable est db.occs date startMin endMin with
      | .error e => (.error e, db)
      | .ok false => createMultipleLoop est now activityId startMin endMin rest db
      | .ok true =>
        match createMultipleLoop est now activityId startMin endMin rest
            (insertOcc db (adhocRow activityId startMin db date)) with
        | (.ok l, db2) => (.ok (adhocRow activityId startMin db date :: l), db2)
        | (.error e, db2) => (.error e, db2)

/-- `CreateMultiple`, with the RFC3339 start/end times and the timezone
already resolved to a time-of-day window (their parse failures abort the call
before the loop and are outside the claims under study, which quantify over
successful calls). -/
def createMultiple (est : Int → Option Nat) (now : Nat) (activityId : Int)
    (selectedDates : List Nat) (startMin endMin : Nat) (db : Db) :
    Except Err (List Occ) × Db :=
  createMultipleLoop est now activityId startMin endMin selectedDates db

/-- `strings.Split(s, ",")` on the character list of `s`: splitting the empty
string yields one empty token, and every comma starts a new token. -/
def splitOnComma : List Char → List (List Char)
  | [] => [[]]
  | c :: rest =>
    match splitOnComma rest with
    | [] => [[]]
    | tok :: toks =>
      if c = ',' then [] :: tok :: toks else (c :: tok) :: toks

/-- The ASCII whitespace recognised by the trim step. -/
def isSpaceChar (c : Char) : Bool :=
  c = ' ' || c = '\t' || c = '\n' || c = '\r'

/-- `strings.TrimSpace` on a token. -/
def trimChars (l : List Char) : List Char :=
  ((l.dropWhile isSpaceChar).reverse.dropWhile isSpaceChar).reverse

/-- The digit run of `strconv.Atoi`: all characters must be decimal digits
and at least one must be present. -/
def digitsToNat : List Char → Option Nat
  | [] => none
  | l => digitsToNatAux l 0
where
  digitsToNatAux : List Char → Nat → Option Nat
    | [], acc => some acc
    | c :: rest, acc =>
      if c.isDigit then digitsToNatAux rest (10 * acc + (c.toNat - 48))
      else none

/-- `strconv.Atoi`: an optional sign followed by a non-empty digit run. -/
def atoiChars : List Char → Option Int
  | '-' :: rest => (digitsToNat rest).map (fun n => -(n : Int))
  | '+' :: rest => (digitsToNat rest).map (fun n => (n : Int))
  | l => (digitsToNat l).map (fun n => (n : Int))

/-- `strconv.Atoi(strings.TrimSpace(tok))` over the comma-split tokens;
the first malformed token yields the `invalid day of week` error. -/
def parseDaysOfWeekTokens : List (List Char) → Except Err (List Int)
  | [] => .ok []
  | tok :: rest =>
    match atoiChars (trimChars tok) with
    | none => .error .invalidDayOfWeek
    | some n =>
      match parseDaysOfWeekTokens rest with
      | .error e => .error e
      | .ok ns => .ok (n :: ns)

/-- The weekday-set parser at the head of `CreateRepeatingScheduledActivity`. -/
def parseDaysOfWeek (s : String) : Except Err (List Int) :=
  parseDaysOfWeekTokens (splitOnComma s.data)

/-- `containsWeekday`. -/
def containsWeekday (days : List Int) (day : Int) : Bool :=
  days.contains day

/-- Go's `time.Weekday` value of calendar day `d` (epoch day 0 is a Sunday). -/
def weekdayOf (d : Nat) : Int := (d % 7 : Nat)

/-- `shouldScheduleActivity` for the day `offset` days after "now":
`currentDate.Sub(startDate).Hours()` is `24*offset`, `int(x/168)` and
`int(x/730)` truncate, and the kept days are those whose elapsed-period
bucket index is `0 mod frequency`. -/
def shouldScheduleActivity (frequency : Nat) (frequencyPeriod : String)
    (offset : Nat) : Bool :=
  if frequencyPeriod = "week" then
    (24 * offset / 168) % frequency == 0
  else if frequencyPeriod = "month" then
    (24 * offset / 730) % frequency == 0
  else
    false

/-- The day walk of `CreateRepeatingScheduledActivity`: every calendar day
from "now" (inclusive) to six months later (exclusive; `horizon` is the
number of days in that window), kept when its weekday is in the parsed set
and `shouldScheduleActivity` accepts its offset.  Returns absolute days. -/
def generatedDays (days : List Int) (frequency : Nat) (frequencyPeriod : String)
    (nowDay horizon : Nat) : List Nat :=
  ((List.range horizon).filter (fun offset =>
      containsWeekday days (weekdayOf (nowDay + offset)) &&
        shouldScheduleActivity frequency frequencyPeriod offset)).map
    (fun offset => nowDay + offset)

/-- The occurrence rows the recurring path builds for the kept days, with ids
as assigned by the batch `INSERT … RETURNING id`. -/
def mkOccs (activityId prefId : Int) (startMin : Nat) :
    Int → List Nat → List Occ
  | _, [] => []
  | nextId, day :: rest =>
    { id := nextId, activityId := activityId, isActive := true,
      scheduledAt := day * 1440 + startMin, prefId := some prefId } ::
      mkOccs activityId prefId startMin (nextId + 1) rest

/-- The roster read
`SELECT user_id FROM user_activity_preferences_participants WHERE …`. -/
def rosterOf (db : Db) (prefId : Int) : List Int :=
  (db.prefParts.filter (fun r => r.prefId == prefId)).map (fun r => r.userId)

/-- The participant fan-out: one `Pending` row per (occurrence × roster user),
in the nesting order of the source loops. -/
def pendingFanout : List Occ → List Int → List Part
  | [], _ => []
  | o :: rest, users =>
    users.map (fun u => { userId := u, schedId := o.id, inviteStatus := "Pending" })
      ++ pendingFanout rest users

/-- Validity oracles for the two ambient parsers of the recurring path:
`time.LoadLocation` and `time.Parse(time.RFC3339, …)` (the latter reduced to
the parsed time-of-day in minutes, the only part the code uses). -/
structure RepEnv where
  tzValid : String → Bool
  parseTime : String → Option Nat

/-- Fault injection for the four fallible database steps of the recurring
path, all executed through the one transaction. -/
structure RepFaults where
  occInsert : Bool
  rosterRead : Bool
  partInsert : Bool
  commitTx : Bool
  deriving Repr, DecidableEq

/-- `CreateRepeatingScheduledActivity`: parse the weekday set, load the
timezone, parse the start time (all before the day walk); walk the horizon
collecting occurrence rows; batch-insert them (skipped when empty), read the
roster, batch-insert the `Pending` fan-out (skipped when empty), commit.
Every write goes through the transaction, so a failure at any step leaves the
committed state untouched and only the commit applies the buffered rows. -/
def createRepeatingScheduledActivity (env : RepEnv) (f : RepFaults)
    (pref : Preference) (startTime timeZone : String) (nowDay horizon : Nat)
    (db : Db) : Except Err (List Occ) × Db :=
  match parseDaysOfWeek pref.daysOfWeek with
  | .error e => (.error e, db)
  | .ok days =>
    if !env.tzValid timeZone then (.error .invalidTimeZone, db)
    else
      match env.parseTime startTime with
      | none => (.error .invalidStartTime, db)
      | some startMin =>
        let occs := mkOccs pref.activityId pref.id startMin db.nextOccId
          (generatedDays days pref.frequency pref.frequencyPeriod nowDay horizon)
        if occs.length > 0 && f.occInsert then (.error .failedBatchInsert, db)
        else if f.rosterRead then (.error .failedFetchParticipants, db)
        else
          let fanout := pendingFanout occs (rosterOf db pref.id)
          if fanout.length > 0 && f.partInsert then
            (.error .failedBatchInsertParticipants, db)
          else if f.commitTx then (.error .failedCommit, db)
          else
            (.ok occs,
              { db with
                occs := db.occs ++ occs,
                parts := db.parts ++ fanout,
                nextOccId := db.nextOccId + occs.length })

/-- The `DELETE` predicate of `DeclineRepeatedActivity`: the participation row
belongs to the declining user and its occurrence is in the series (same
owning preference) and starts at or after "now". -/
def declineMatches (occs : List Occ) (now : Nat) (userId prefId : Int)
    (p : Part) : Bool :=
  p.userId == userId &&
    occs.any (fun o =>
      o.id == p.schedId && o.prefId == some prefId && now ≤ o.scheduledAt)

/-- `DeclineRepeatedActivity`: one transaction that resolves the occurrence's
owning preference id (`QueryRow … Scan(&userActivityPreferenceID)` — an error
both when no row matches and when the column is NULL, through the same
`failed to get user_activity_preference_id` wrap site) and then deletes the
matching participation rows. -/
def declineRepeatedActivity (now : Nat) (userId schedId : Int) (db : Db) :
    Except Err Unit × Db :=
  match (db.occs.find? (fun o => o.id == schedId)).bind (fun o => o.prefId) with
  | none => (.error .failedGetPrefId, db)
  | some prefId =>
    (.ok (),
      { db with
        parts := db.parts.filter
          (fun p => !declineMatches db.occs now userId prefId p) })

/-- `HandleHTTPPostDeclineRepeatedActivity` status mapping for a decoded
request: every service error is surfaced as HTTP 500; success is 204. -/
def handleDeclineStatus (now : Nat) (userId schedId : Int) (db : Db) : Nat :=
  match (declineRepeatedActivity now userId schedId db).1 with
  | .error _ => 500
  | .ok _ => 204

/-- A concrete duration resolver for the scenario instances: activity 1 has
estimated duration 60 minutes, nothing else exists. -/
def exampleEst : Int → Option Nat := fun a => if a == 1 then some 60 else none

/-! ### Lemmas about the conflict check -/

theorem availLoop_ok_false_iff (est : Int → Option Nat) (dS dE : Nat)
    (l : List Occ) (h : ∀ o ∈ l, (est o.activityId).isSome = true) :
    availLoop est dS dE l = .ok false ↔
      ∃ o ∈ l, ∃ dur, est o.activityId = some dur ∧
        o.scheduledAt < dE ∧ dS < o.scheduledAt + dur := by
  induction l with
  | nil => simp [availLoop]
  | cons o rest ih =>
    obtain ⟨dur, hdur⟩ := Option.isSome_iff_exists.mp (h o (by simp))
    have hrest := ih (fun x hx => h x (by simp [hx]))
    by_cases hov : o.scheduledAt < dE ∧ dS < o.scheduledAt + dur
    · simp only [availLoop, hdur]
      rw [if_pos (by simpa using hov)]
      simp only [true_iff]
      exact ⟨o, by simp, dur, hdur, hov.1, hov.2⟩
    · simp only [availLoop, hdur]
      rw [if_neg (by simpa using hov)]
      rw [hrest]
      constructor
      · rintro ⟨x, hx, dx, hdx, hov'⟩
        exact ⟨x, by simp [hx], dx, hdx, hov'⟩
      · rintro ⟨x, hx, dx, hdx, h1, h2⟩
        rcases List.mem_cons.mp hx with hx | hx
        · subst hx
          rw [hdur] at hdx
          cases hdx
          exact absurd ⟨h1, h2⟩ hov
        · exact ⟨x, hx, dx, hdx, h1, h2⟩

theorem availLoop_no_error (est : Int → Option Nat) (dS dE : Nat)
    (l : List Occ) (h : ∀ o ∈ l, (est o.activityId).isSome = true) :
    availLoop est dS dE l = .ok true ∨ availLoop est dS dE l = .ok false := by
  induction l with
  | nil => simp [availLoop]
  | cons o rest ih =>
    obtain ⟨dur, hdur⟩ := Option.isSome_iff_exists.mp (h o (by simp))
    simp only [availLoop, hdur]
    by_cases hov : (o.scheduledAt < dE && dS < o.scheduledAt + dur) = true
    · rw [if_pos hov]; right; rfl
    · rw [if_neg hov]; exact ih (fun x hx => h x (by simp [hx]))

/-- The conflict check depends only on the rows whose `DATE(scheduled_at)`
equals the candidate date. -/
theorem checkIfUserIsAvailable_congr (est : Int → Option Nat)
    (occs occs' : List Occ) (date startMin endMin : Nat)
    (h : occs.filter (fun o => dateOf o.scheduledAt == date) =
         occs'.filter (fun o => dateOf o.scheduledAt == date)) :
    checkIfUserIsAvailable est occs date startMin endMin =
      checkIfUserIsAvailable est occs' date startMin endMin := by
  unfold checkIfUserIsAvailable
  rw [h]

theorem checkIfUserIsAvailable_false_iff (est : Int → Option Nat)
    (occs : List Occ) (date startMin endMin : Nat)
    (h : ∀ o ∈ occs, dateOf o.scheduledAt = date → (est o.activityId).isSome = true) :
    checkIfUserIsAvailable est occs date startMin endMin = .ok false ↔
      ∃ o ∈ occs, OverlapsWindow est date startMin endMin o := by
  unfold checkIfUserIsAvailable
  rw [availLoop_ok_false_iff]
  · constructor
    · rintro ⟨o, ho, dur, hdur, h1, h2⟩
      have := List.mem_filter.mp ho
      exact ⟨o, this.1, by simpa using this.2, dur, hdur, h1, h2⟩
    · rintro ⟨o, ho, hdate, dur, hdur, h1, h2⟩
      exact ⟨o, List.mem_filter.mpr ⟨ho, by simpa using hdate⟩, dur, hdur, h1, h2⟩
  · intro o ho
    have := List.mem_filter.mp ho
    exact h o this.1 (by simpa using this.2)

theorem checkIfUserIsAvailable_ok (est : Int → Option Nat)
    (occs : List Occ) (date startMin endMin : Nat)
    (h : ∀ o ∈ occs, dateOf o.scheduledAt = date → (est o.activityId).isSome = true) :
    checkIfUserIsAvailable est occs date startMin endMin = .ok true ∨
      checkIfUserIsAvailable est occs date startMin endMin = .ok false := by
  unfold checkIfUserIsAvailable
  apply availLoop_no_error
  intro o ho
  have := List.mem_filter.mp ho
  exact h o this.1 (by simpa using this.2)

/-! ### Claim C4 and claim C10 -/

/-- C4: `checkIfUserIsAvailable` reports the candidate date unavailable iff
some occurrence already scheduled on that date — its end instant being its
start plus the activity's resolved estimated duration — satisfies
`existing.start < desiredEnd AND existing.end > desiredStart`; consequently
the windows [10:00,11:00) and [10:30,11:30) on one date conflict while
[10:00,11:00) and [11:00,12:00) do not (instants in minutes: 600, 630, 660,
720; the existing activity's duration resolves to 60 minutes). -/
theorem conflict_check_overlap_iff
    (est : Int → Option Nat) (occs : List Occ) (date startMin endMin : Nat)
    (h : ∀ o ∈ occs, dateOf o.scheduledAt = date → (est o.activityId).isSome = true) :
    (checkIfUserIsAvailable est occs date startMin endMin = .ok false ↔
      ∃ o ∈ occs, OverlapsWindow est date startMin endMin o) ∧
    checkIfUserIsAvailable exampleEst
      [{ id := 1, activityId := 1, isActive := true, scheduledAt := 630, prefId := none }]
      0 600 660 = .ok false ∧
    checkIfUserIsAvailable exampleEst
      [{ id := 1, activityId := 1, isActive := true, scheduledAt := 600, prefId := none }]
      0 660 720 = .ok true :=
  ⟨checkIfUserIsAvailable_false_iff est occs date startMin endMin h, rfl, rfl⟩

theorem conflict_check_overlap_iff_witness :
    checkIfUserIsAvailable exampleEst
      [{ id := 1, activityId := 1, isActive := true, scheduledAt := 630, prefId := none }]
      0 600 660 = .ok false ↔
    ∃ o ∈ [({ id := 1, activityId := 1, isActive := true, scheduledAt := 630,
              prefId := none } : Occ)], OverlapsWindow exampleEst 0 600 660 o :=
  (conflict_check_overlap_iff exampleEst
    [{ id := 1, activityId := 1, isActive := true, scheduledAt := 630, prefId := none }]
    0 600 660 (by decide)).1

/-- C10: the conflict check reads every row whose `DATE(scheduled_at)` equals
the candidate date — the query filters by date only, so an occurrence with
`is_active = false` still makes an overlapping window unavailable; the check
consults no participation data at all (`checkIfUserIsAvailable` takes none). -/
theorem conflict_check_counts_inactive
    (est : Int → Option Nat) (occs : List Occ) (date startMin endMin : Nat)
    (o : Occ)
    (h : ∀ x ∈ occs, dateOf x.scheduledAt = date → (est x.activityId).isSome = true)
    (ho : o ∈ occs) (_hia : o.isActive = false)
    (hov : OverlapsWindow est date startMin endMin o) :
    checkIfUserIsAvailable est occs date startMin endMin = .ok false :=
  (checkIfUserIsAvailable_false_iff est occs date startMin endMin h).mpr ⟨o, ho, hov⟩

theorem conflict_check_counts_inactive_witness :
    checkIfUserIsAvailable exampleEst
      [{ id := 1, activityId := 1, isActive := false, scheduledAt := 630, prefId := none }]
      0 600 660 = .ok false :=
  conflict_check_counts_inactive exampleEst
    [{ id := 1, activityId := 1, isActive := false, scheduledAt := 630, prefId := none }]
    0 600 660
    { id := 1, activityId := 1, isActive := false, scheduledAt := 630, prefId := none }
    (by decide) (by decide) rfl (by decide)

/-! ### Lemmas about series decline -/

/-- Propositional reading of the `DELETE` predicate. -/
theorem declineMatches_iff (occs : List Occ) (now : Nat) (userId prefId : Int)
    (p : Part) :
    declineMatches occs now userId prefId p = true ↔
      p.userId = userId ∧ ∃ o ∈ occs,
        o.id = p.schedId ∧ o.prefId = some prefId ∧ now ≤ o.scheduledAt := by
  simp [declineMatches, List.any_eq_true, Bool.and_eq_true, beq_iff_eq,
    decide_eq_true_eq, and_assoc]

/-- The participation table after a successful decline. -/
def afterDecline (db : Db) (now : Nat) (userId prefId : Int) : Db :=
  { db with parts := db.parts.filter (fun p =>
      !declineMatches db.occs now userId prefId p) }

/-- On the success path the decline operation filters the participation table
with `declineMatches` and touches nothing else. -/
theorem declineRepeatedActivity_ok (now : Nat) (userId schedId : Int) (db : Db)
    (o : Occ) (prefId : Int)
    (hfind : db.occs.find? (fun x => x.id == schedId) = some o)
    (hpref : o.prefId = some prefId) :
    declineRepeatedActivity now userId schedId db =
      (.ok (), afterDecline db now userId prefId) := by
  unfold declineRepeatedActivity
  rw [hfind, Option.some_bind, hpref]
  rfl

/-- A scheduled occurrence of the series owned by preference 4, for the
decline scenarios. -/
def exSeriesOcc : Occ :=
  { id := 1, activityId := 9, isActive := true, scheduledAt := 2000,
    prefId := some 4 }

/-- User 7's pending participation in `exSeriesOcc`. -/
def exPart7 : Part := { userId := 7, schedId := 1, inviteStatus := "Pending" }

/-- User 8's pending participation in `exSeriesOcc`. -/
def exPart8 : Part := { userId := 8, schedId := 1, inviteStatus := "Pending" }

/-- A database ready for user 7 to decline the series of `exSeriesOcc`. -/
def exDb : Db :=
  { occs := [exSeriesOcc], parts := [exPart7, exPart8], prefParts := [],
    nextOccId := 10 }

/-! ### Claim C7, claim C8 and claim C9 -/

/-- C7: a successful `DeclineRepeatedActivity(userID, occurrenceID)` on an
occurrence owned by a preference deletes, in its one transaction, exactly the
participation rows of that user whose occurrence belongs to the same
preference and starts at or after "now"; rows of other users, the same user's
rows for past occurrences or other series, and every scheduled-occurrence and
roster row are unchanged. -/
theorem decline_deletes_exactly_future_series_rows
    (now : Nat) (userId schedId : Int) (db : Db) (o : Occ) (prefId : Int)
    (hfind : db.occs.find? (fun x => x.id == schedId) = some o)
    (hpref : o.prefId = some prefId) :
    declineRepeatedActivity now userId schedId db =
      (.ok (), afterDecline db now userId prefId) ∧
    (afterDecline db now userId prefId).occs = db.occs ∧
    (afterDecline db now userId prefId).prefParts = db.prefParts ∧
    (afterDecline db now userId prefId).nextOccId = db.nextOccId ∧
    (afterDecline db now userId prefId).parts.Sublist db.parts ∧
    ∀ p, p ∈ (afterDecline db now userId prefId).parts ↔ p ∈ db.parts ∧
      ¬(p.userId = userId ∧ ∃ o' ∈ db.occs,
          o'.id = p.schedId ∧ o'.prefId = some prefId ∧ now ≤ o'.scheduledAt) := by
  refine ⟨declineRepeatedActivity_ok now userId schedId db o prefId hfind hpref,
    rfl, rfl, rfl, List.filter_sublist db.parts, ?_⟩
  intro p
  show p ∈ db.parts.filter _ ↔ _
  rw [List.mem_filter]
  rw [show (!declineMatches db.occs now userId prefId p) = true ↔
        ¬(declineMatches db.occs now userId prefId p = true) from by simp]
  rw [declineMatches_iff]

theorem decline_deletes_exactly_future_series_rows_witness :
    declineRepeatedActivity 100 7 1 exDb = (.ok (), afterDecline exDb 100 7 4) ∧
    (afterDecline exDb 100 7 4).parts.Sublist exDb.parts :=
  ⟨(decline_deletes_exactly_future_series_rows 100 7 1 exDb exSeriesOcc 4
      (by decide) rfl).1,
    (decline_deletes_exactly_future_series_rows 100 7 1 exDb exSeriesOcc 4
      (by decide) rfl).2.2.2.2.1⟩

/-- C8: decline is idempotent — a second call with the same (user, occurrence)
at a no-earlier "now" succeeds and returns the state of the first call
unchanged. -/
theorem decline_idempotent (now1 now2 : Nat) (userId schedId : Int)
    (db db1 : Db) (hle : now1 ≤ now2)
    (h1 : declineRepeatedActivity now1 userId schedId db = (.ok (), db1)) :
    declineRepeatedActivity now2 userId schedId db1 = (.ok (), db1) := by
  unfold declineRepeatedActivity at h1 ⊢
  cases hbind : (db.occs.find? (fun x => x.id == schedId)).bind (fun x => x.prefId) with
  | none => rw [hbind] at h1; cases h1
  | some prefId =>
    rw [hbind] at h1
    simp only [Prod.mk.injEq] at h1
    have hdb1 : db1 = afterDecline db now1 userId prefId := h1.2.symm
    have hoccs : db1.occs = db.occs := by rw [hdb1]; rfl
    have hbind1 : (db1.occs.find? (fun x => x.id == schedId)).bind
        (fun x => x.prefId) = some prefId := by rw [hoccs]; exact hbind
    rw [hbind1]
    have hkeep : ∀ p ∈ db1.parts,
        (!declineMatches db1.occs now2 userId prefId p) = true := by
      intro p hp
      rw [hdb1] at hp
      have hmem := List.mem_filter.mp hp
      have hnot1 : declineMatches db.occs now1 userId prefId p = false := by
        have := hmem.2
        simpa using this
      rw [hoccs]
      simp only [Bool.not_eq_true']
      rw [← Bool.not_eq_true]
      intro hm2
      rw [declineMatches_iff] at hm2
      obtain ⟨hu, o', ho', hid, hpid, hnow⟩ := hm2
      have hm1 : declineMatches db.occs now1 userId prefId p = true := by
        rw [declineMatches_iff]
        exact ⟨hu, o', ho', hid, hpid, le_trans hle hnow⟩
      rw [hnot1] at hm1
      cases hm1
    show (Except.ok (), { db1 with parts := db1.parts.filter (fun p =>
        !declineMatches db1.occs now2 userId prefId p) }) =
      ((Except.ok (), db1) : Except Err Unit × Db)
    rw [List.filter_eq_self.mpr hkeep]

theorem decline_idempotent_witness :
    declineRepeatedActivity 100 7 1 (afterDecline exDb 50 7 4) =
      (.ok (), afterDecline exDb 50 7 4) :=
  decline_idempotent 50 100 7 1 exDb (afterDecline exDb 50 7 4)
    (by decide)
    (declineRepeatedActivity_ok 50 7 1 exDb exSeriesOcc 4 (by decide) rfl)

/-- An ad-hoc occurrence: no owning preference (`user_activity_preference_id`
is NULL). -/
def exAdhocOcc : Occ :=
  { id := 3, activityId := 9, isActive := true, scheduledAt := 3000,
    prefId := none }

/-- A database whose only occurrence is ad-hoc, with one participation row. -/
def exAdhocDb : Db :=
  { occs := [exAdhocOcc],
    parts := [{ userId := 7, schedId := 3, inviteStatus := "Pending" }],
    prefParts := [], nextOccId := 10 }

/-- C9 counterexample: declining an ad-hoc occurrence does fail and deletes
nothing, but not with a not-found error.  The `Scan` of the NULL
`user_activity_preference_id` produces the generic wrapped
`failed to get user_activity_preference_id` error, and the decline handler
maps every service error to HTTP 500 — it is never surfaced as 404, which is
how the specification's error taxonomy reports `NotFoundError`. -/
theorem decline_adhoc_not_notfound_counterexample :
    declineRepeatedActivity 0 7 3 exAdhocDb =
      (.error .failedGetPrefId, exAdhocDb) ∧
    handleDeclineStatus 0 7 3 exAdhocDb = 500 ∧
    ¬ handleDeclineStatus 0 7 3 exAdhocDb = 404 :=
  ⟨rfl, rfl, by decide⟩

/-- C9 (amended): for every call to `DeclineRepeatedActivity` on an occurrence
whose owning-preference reference is NULL, the operation fails with the
generic wrapped `failed to get user_activity_preference_id` error — surfaced
by the HTTP adapter as 500, not as a not-found 404 — and deletes no
participation rows: the state is unchanged on the error path. -/
theorem decline_adhoc_generic_error
    (now : Nat) (userId schedId : Int) (db : Db) (o : Occ)
    (hfind : db.occs.find? (fun x => x.id == schedId) = some o)
    (hnull : o.prefId = none) :
    declineRepeatedActivity now userId schedId db =
      (.error .failedGetPrefId, db) ∧
    handleDeclineStatus now userId schedId db = 500 := by
  have h : declineRepeatedActivity now userId schedId db =
      (.error .failedGetPrefId, db) := by
    unfold declineRepeatedActivity
    rw [hfind, Option.some_bind, hnull]
  refine ⟨h, ?_⟩
  unfold handleDeclineStatus
  rw [h]

theorem decline_adhoc_generic_error_witness :
    declineRepeatedActivity 0 7 3 exAdhocDb =
      (.error .failedGetPrefId, exAdhocDb) ∧
    handleDeclineStatus 0 7 3 exAdhocDb = 500 :=
  decline_adhoc_generic_error 0 7 3 exAdhocDb exAdhocOcc (by decide) rfl

/-! ### Lemmas and claims about the recurring path -/

/-- The state a committed recurring creation leaves behind: every occurrence
row and the full pending fan-out appended, ids advanced. -/
def afterRepeatCommit (db : Db) (prefId : Int) (occs : List Occ) : Db :=
  { db with
    occs := db.occs ++ occs,
    parts := db.parts ++ pendingFanout occs (rosterOf db prefId),
    nextOccId := db.nextOccId + occs.length }

/-- A concrete environment for the recurring scenarios: the only valid
timezone identifier is `UTC` and the only parseable start time is `T18`,
which resolves to 18:00 (minute 1080 of the day). -/
def exRepEnv : RepEnv :=
  { tzValid := fun s => s == "UTC",
    parseTime := fun s => if s == "T18" then some 1080 else none }

/-- A preference: every 2 weeks on Mondays (Go weekday 1). -/
def exRepPref : Preference :=
  { id := 5, userId := 2, activityId := 9, frequency := 2,
    frequencyPeriod := "week", daysOfWeek := "1" }

/-- An empty store whose roster invites user 11 to preference 5. -/
def exRepDb : Db :=
  { occs := [], parts := [], prefParts := [{ prefId := 5, userId := 11 }],
    nextOccId := 100 }

/-- No injected faults. -/
def noFaults : RepFaults :=
  { occInsert := false, rosterRead := false, partInsert := false,
    commitTx := false }

/-- The spec's simulated fault: the participation batch insert fails after
the occurrence batch insert succeeded. -/
def partInsertFault : RepFaults :=
  { occInsert := false, rosterRead := false, partInsert := true,
    commitTx := false }

/-- The first occurrence generated for `exRepPref` from `exRepDb` with
`nowDay = 1` (a Monday): that same Monday at 18:00. -/
def exRepOcc : Occ :=
  { id := 100, activityId := 9, isActive := true, scheduledAt := 2520,
    prefId := some 5 }

/-- C1: each invocation of `CreateRepeatingScheduledActivity` is atomic —
every write goes through the one transaction, so whenever any step after
`Begin` fails (occurrence batch insert, roster read, participation batch
insert, or commit) the invocation returns an error and the committed state is
exactly the pre-state, and on success the committed state carries every
generated occurrence and every `Pending` participation of the roster
fan-out.  Moreover a fault in a step that was actually executed always turns
into an error: the roster read and the commit always execute once validation
passes, and a surviving fault flag on either insert means that insert was
vacuous. -/
theorem createRepeating_atomic (env : RepEnv) (f : RepFaults)
    (pref : Preference) (startTime timeZone : String) (nowDay horizon : Nat)
    (db : Db) :
    (∀ e, (createRepeatingScheduledActivity env f pref startTime timeZone
        nowDay horizon db).1 = .error e →
      (createRepeatingScheduledActivity env f pref startTime timeZone
        nowDay horizon db).2 = db) ∧
    (∀ res, (createRepeatingScheduledActivity env f pref startTime timeZone
        nowDay horizon db).1 = .ok res →
      (createRepeatingScheduledActivity env f pref startTime timeZone
        nowDay horizon db).2 = afterRepeatCommit db pref.id res) ∧
    (f.rosterRead = true ∨ f.commitTx = true →
      ∃ e, (createRepeatingScheduledActivity env f pref startTime timeZone
        nowDay horizon db).1 = .error e) ∧
    (∀ res, (createRepeatingScheduledActivity env f pref startTime timeZone
        nowDay horizon db).1 = .ok res → f.occInsert = true → res = []) ∧
    (∀ res, (createRepeatingScheduledActivity env f pref startTime timeZone
        nowDay horizon db).1 = .ok res → f.partInsert = true →
      pendingFanout res (rosterOf db pref.id) = []) := by
  refine ⟨?_, ?_, ?_, ?_, ?_⟩ <;>
  · unfold createRepeatingScheduledActivity
    repeat' split
    all_goals
      simp_all [afterRepeatCommit, Bool.and_eq_true, List.length_eq_zero,
        Nat.pos_iff_ne_zero]
    all_goals
      repeat' split
    all_goals
      simp_all
    all_goals
      intro ha
      by_contra hne
      simp_all

theorem createRepeating_atomic_witness :
    (createRepeatingScheduledActivity exRepEnv partInsertFault exRepPref
        "T18" "UTC" 1 30 exRepDb).1 = .error .failedBatchInsertParticipants ∧
    (createRepeatingScheduledActivity exRepEnv partInsertFault exRepPref
        "T18" "UTC" 1 30 exRepDb).2 = exRepDb :=
  ⟨by rfl,
    (createRepeating_atomic exRepEnv partInsertFault exRepPref
      "T18" "UTC" 1 30 exRepDb).1 .failedBatchInsertParticipants (by rfl)⟩

/-- C6: an invalid timezone identifier, an unparseable start time, or a
malformed weekday token makes `CreateRepeatingScheduledActivity` fail with
the corresponding validation error before any calendar day of the horizon is
walked and before any database step: the result does not depend on the
horizon or on any fault flag, and the committed state is exactly the
pre-state — no occurrence or participation row is created. -/
theorem createRepeating_validation (env : RepEnv) (f : RepFaults)
    (pref : Preference) (startTime timeZone : String) (nowDay horizon : Nat)
    (db : Db) :
    (∀ e, parseDaysOfWeek pref.daysOfWeek = .error e →
      createRepeatingScheduledActivity env f pref startTime timeZone
        nowDay horizon db = (.error e, db)) ∧
    (∀ days, parseDaysOfWeek pref.daysOfWeek = .ok days →
      env.tzValid timeZone = false →
      createRepeatingScheduledActivity env f pref startTime timeZone
        nowDay horizon db = (.error .invalidTimeZone, db)) ∧
    (∀ days, parseDaysOfWeek pref.daysOfWeek = .ok days →
      env.tzValid timeZone = true → env.parseTime startTime = none →
      createRepeatingScheduledActivity env f pref startTime timeZone
        nowDay horizon db = (.error .invalidStartTime, db)) := by
  refine ⟨?_, ?_, ?_⟩
  · intro e he
    unfold createRepeatingScheduledActivity
    rw [he]
  · intro days hdays htz
    unfold createRepeatingScheduledActivity
    rw [hdays, htz]
    rfl
  · intro days hdays htz htime
    unfold createRepeatingScheduledActivity
    rw [hdays, htz, htime]
    rfl

theorem createRepeating_validation_witness :
    createRepeatingScheduledActivity exRepEnv noFaults exRepPref
      "T18" "America/NoSuchZone" 1 183 exRepDb =
    (.error .invalidTimeZone, exRepDb) :=
  (createRepeating_validation exRepEnv noFaults exRepPref
    "T18" "America/NoSuchZone" 1 183 exRepDb).2.1 [1] (by rfl) rfl

/-- A successful recurring creation returns exactly the occurrence rows built
from the generated days, with the parsed weekday set and start time. -/
theorem createRepeating_ok_res (env : RepEnv) (f : RepFaults)
    (pref : Preference) (startTime timeZone : String) (nowDay horizon : Nat)
    (db db2 : Db) (res : List Occ)
    (hok : createRepeatingScheduledActivity env f pref startTime timeZone
        nowDay horizon db = (.ok res, db2)) :
    ∃ days startMin, parseDaysOfWeek pref.daysOfWeek = .ok days ∧
      env.parseTime startTime = some startMin ∧
      res = mkOccs pref.activityId pref.id startMin db.nextOccId
        (generatedDays days pref.frequency pref.frequencyPeriod nowDay horizon) := by
  unfold createRepeatingScheduledActivity at hok
  repeat' split at hok
  all_goals simp_all [Prod.mk.injEq]
  all_goals
    repeat' split at hok
  all_goals simp_all

/-- Every row built by `mkOccs` carries the start-of-day instant of one of the
generated days. -/
theorem mem_mkOccs (activityId prefId : Int) (startMin : Nat) (nextId : Int)
    (days : List Nat) (o : Occ)
    (ho : o ∈ mkOccs activityId prefId startMin nextId days) :
    ∃ d ∈ days, o.scheduledAt = d * 1440 + startMin := by
  induction days generalizing nextId with
  | nil => cases ho
  | cons d rest ih =>
    rcases List.mem_cons.mp ho with h | h
    · exact ⟨d, by simp, by rw [h]⟩
    · obtain ⟨d', hd', hsched⟩ := ih (nextId + 1) h
      exact ⟨d', by simp [hd'], hsched⟩

/-- Membership in the day walk's output. -/
theorem mem_generatedDays (days : List Int) (frequency : Nat)
    (frequencyPeriod : String) (nowDay horizon : Nat) (d : Nat) :
    d ∈ generatedDays days frequency frequencyPeriod nowDay horizon ↔
      ∃ off, off < horizon ∧ d = nowDay + off ∧
        containsWeekday days (weekdayOf (nowDay + off)) = true ∧
        shouldScheduleActivity frequency frequencyPeriod off = true := by
  unfold generatedDays
  simp only [List.mem_map, List.mem_filter, List.mem_range, Bool.and_eq_true]
  constructor
  · rintro ⟨off, ⟨hh, hw, hs⟩, rfl⟩
    exact ⟨off, hh, rfl, hw, hs⟩
  · rintro ⟨off, hh, rfl, hw, hs⟩
    exact ⟨off, ⟨hh, hw, hs⟩, rfl⟩

/-! ### Claim C2 -/

/-- C2: every occurrence returned by a successful
`CreateRepeatingScheduledActivity` lies on a calendar day inside the horizon
[now, now + 6 months) — `horizon` being the number of days the walk covers —
and its weekday belongs to the preference's parsed weekday set; no occurrence
is generated outside the horizon. -/
theorem createRepeating_horizon_weekday (env : RepEnv) (f : RepFaults)
    (pref : Preference) (startTime timeZone : String) (nowDay horizon : Nat)
    (db db2 : Db) (res : List Occ) (days : List Int) (startMin : Nat)
    (hdays : parseDaysOfWeek pref.daysOfWeek = .ok days)
    (htime : env.parseTime startTime = some startMin)
    (hsm : startMin < 1440)
    (hok : createRepeatingScheduledActivity env f pref startTime timeZone
        nowDay horizon db = (.ok res, db2)) :
    ∀ o ∈ res, nowDay ≤ dateOf o.scheduledAt ∧
      dateOf o.scheduledAt < nowDay + horizon ∧
      containsWeekday days (weekdayOf (dateOf o.scheduledAt)) = true := by
  intro o ho
  obtain ⟨days', startMin', hdays', htime', hres⟩ :=
    createRepeating_ok_res env f pref startTime timeZone nowDay horizon
      db db2 res hok
  rw [hdays] at hdays'
  rw [htime] at htime'
  cases hdays'
  cases htime'
  rw [hres] at ho
  obtain ⟨d, hd, hsched⟩ := mem_mkOccs _ _ _ _ _ o ho
  obtain ⟨off, hoff, rfl, hw, _⟩ :=
    (mem_generatedDays days pref.frequency pref.frequencyPeriod
      nowDay horizon d).mp hd
  have hdate : dateOf o.scheduledAt = nowDay + off := by
    rw [hsched]
    unfold dateOf
    omega
  rw [hdate]
  exact ⟨Nat.le_add_right _ _, by omega, hw⟩

theorem createRepeating_horizon_weekday_witness :
    1 ≤ dateOf exRepOcc.scheduledAt ∧ dateOf exRepOcc.scheduledAt < 1 + 30 ∧
    containsWeekday [1] (weekdayOf (dateOf exRepOcc.scheduledAt)) = true :=
  createRepeating_horizon_weekday exRepEnv noFaults exRepPref
    "T18" "UTC" 1 30 exRepDb _ _ [1] 1080
    (by rfl) rfl (by decide) (by rfl) exRepOcc (by decide)

/-! ### Claim C3 -/

/-- For period `week`, `int(Hours()/168)` is the whole-week index of the
day offset, and a day is kept when that index is `0 mod frequency`. -/
theorem shouldSchedule_week (frequency off : Nat) :
    shouldScheduleActivity frequency "week" off = true ↔
      off / 7 % frequency = 0 := by
  unfold shouldScheduleActivity
  rw [if_pos rfl]
  have h : 24 * off / 168 = off / 7 := by omega
  rw [h]
  simp

/-- Two distinct multiples of a positive `N` are at least `N` apart. -/
theorem mult_gap {N x y : Nat} (hx : x % N = 0) (hy : y % N = 0)
    (hxy : x < y) : x + N ≤ y := by
  obtain ⟨a, rfl⟩ := Nat.dvd_of_mod_eq_zero hx
  obtain ⟨b, rfl⟩ := Nat.dvd_of_mod_eq_zero hy
  have hab : a < b := Nat.lt_of_mul_lt_mul_left hxy
  calc N * a + N = N * (a + 1) := by ring
    _ ≤ N * b := Nat.mul_le_mul_left N hab

/-- C3: for a preference with frequency `N` and period `week`, two generated
days that share a weekday and have no generated day of that weekday between
them are exactly `7*N` days apart; in the concrete scenario — frequency 2,
Mondays only, "now" a Monday (day 1), start time 18:00, 6-month horizon of
183 days — the first occurrence is that same Monday at 18:00 (minute
1 * 1440 + 1080) and the second is 14 days later, not 7. -/
theorem generatedDays_week_spacing (days : List Int) (N : Nat) (hN : 0 < N)
    (nowDay horizon d1 d2 : Nat)
    (h1 : d1 ∈ generatedDays days N "week" nowDay horizon)
    (h2 : d2 ∈ generatedDays days N "week" nowDay horizon)
    (hlt : d1 < d2)
    (hwd : weekdayOf d1 = weekdayOf d2)
    (hcons : ∀ d ∈ generatedDays days N "week" nowDay horizon,
      d1 < d → d < d2 → weekdayOf d ≠ weekdayOf d1) :
    d2 = d1 + 7 * N ∧
    (generatedDays [1] 2 "week" 1 183).take 2 = [1, 1 + 14] ∧
    (mkOccs 9 5 1080 100 ((generatedDays [1] 2 "week" 1 183).take 2)).map
      Occ.scheduledAt = [1 * 1440 + 1080, 15 * 1440 + 1080] := by
  refine ⟨?_, by decide, by decide⟩
  obtain ⟨off1, hh1, he1, hw1, hs1⟩ :=
    (mem_generatedDays days N "week" nowDay horizon d1).mp h1
  obtain ⟨off2, hh2, he2, hw2, hs2⟩ :=
    (mem_generatedDays days N "week" nowDay horizon d2).mp h2
  subst he1
  subst he2
  rw [shouldSchedule_week] at hs1 hs2
  have hr : off1 % 7 = off2 % 7 := by
    unfold weekdayOf at hwd
    have : (nowDay + off1) % 7 = (nowDay + off2) % 7 := by exact_mod_cast hwd
    omega
  have hge : off1 / 7 + N ≤ off2 / 7 := mult_gap hs1 hs2 (by omega)
  by_cases hkeq : off2 / 7 = off1 / 7 + N
  · omega
  · exfalso
    have hgt : off1 / 7 + N < off2 / 7 := by omega
    have hwm : weekdayOf (nowDay + (7 * (off1 / 7 + N) + off1 % 7)) =
        weekdayOf (nowDay + off1) := by
      unfold weekdayOf
      congr 1
      omega
    have hsched : shouldScheduleActivity N "week"
        (7 * (off1 / 7 + N) + off1 % 7) = true := by
      rw [shouldSchedule_week]
      have hdiv : (7 * (off1 / 7 + N) + off1 % 7) / 7 = off1 / 7 + N := by
        omega
      rw [hdiv, Nat.add_mod_right]
      exact hs1
    have hmem : nowDay + (7 * (off1 / 7 + N) + off1 % 7) ∈
        generatedDays days N "week" nowDay horizon := by
      rw [mem_generatedDays]
      refine ⟨7 * (off1 / 7 + N) + off1 % 7, by omega, rfl, ?_, hsched⟩
      rw [hwm]
      exact hw1
    exact hcons _ hmem (by omega) (by omega) hwm

theorem generatedDays_week_spacing_witness :
    15 = 1 + 7 * 2 ∧
    (generatedDays [1] 2 "week" 1 183).take 2 = [1, 1 + 14] ∧
    (mkOccs 9 5 1080 100 ((generatedDays [1] 2 "week" 1 183).take 2)).map
      Occ.scheduledAt = [1 * 1440 + 1080, 15 * 1440 + 1080] :=
  generatedDays_week_spacing [1] 2 (by decide) 1 183 1 15
    (by decide) (by decide) (by decide) (by decide) (by decide)

/-! ### Claim C5 -/

/-- The dates `CreateMultiple` keeps, judged against a fixed set of existing
rows: not in the past (the date's local midnight is not before "now") and
available per the conflict check. -/
def adhocKept (est : Int → Option Nat) (now startMin endMin : Nat)
    (occs0 : List Occ) (d : Nat) : Bool :=
  !(d * 1440 < now) &&
    match checkIfUserIsAvailable est occs0 d startMin endMin with
    | .ok true => true
    | _ => false

/-- The rows `CreateMultiple` inserts for the kept dates, ids in insertion
order. -/
def mkAdhocOccs (activityId : Int) (startMin : Nat) :
    Int → List Nat → List Occ
  | _, [] => []
  | nextId, d :: rest =>
    { id := nextId, activityId := activityId, isActive := true,
      scheduledAt := d * 1440 + startMin, prefId := none } ::
      mkAdhocOccs activityId startMin (nextId + 1) rest

/-- Each created row's date is the kept date it came from. -/
theorem map_dateOf_mkAdhocOccs (activityId : Int) (startMin : Nat)
    (hsm : startMin < 1440) (nextId : Int) (ds : List Nat) :
    (mkAdhocOccs activityId startMin nextId ds).map
      (fun o => dateOf o.scheduledAt) = ds := by
  induction ds generalizing nextId with
  | nil => rfl
  | cons d rest ih =>
    simp only [mkAdhocOccs, List.map_cons, ih]
    congr 1
    unfold dateOf
    omega

/-- Appending rows that live on other dates does not change the set of rows
the conflict check sees for a date. -/
theorem filter_date_append (l extra : List Occ) (d : Nat)
    (hex : ∀ o ∈ extra, dateOf o.scheduledAt ≠ d) :
    (l ++ extra).filter (fun o => dateOf o.scheduledAt == d) =
      l.filter (fun o => dateOf o.scheduledAt == d) := by
  rw [List.filter_append]
  have : extra.filter (fun o => dateOf o.scheduledAt == d) = [] := by
    rw [List.filter_eq_nil_iff]
    intro o ho
    simpa using hex o ho
  rw [this, List.append_nil]

/-- Unfolding equation for the loop on a non-empty date list. -/
theorem createMultipleLoop_cons (est : Int → Option Nat) (now : Nat)
    (activityId : Int) (startMin endMin : Nat) (date : Nat) (rest : List Nat)
    (db : Db) :
    createMultipleLoop est now activityId startMin endMin (date :: rest) db =
      if date * 1440 < now then
        createMultipleLoop est now activityId startMin endMin rest db
      else
        match checkIfUserIsAvailable est db.occs date startMin endMin with
        | .error e => (.error e, db)
        | .ok false =>
          createMultipleLoop est now activityId startMin endMin rest db
        | .ok true =>
          match createMultipleLoop est now activityId startMin endMin rest
              (insertOcc db (adhocRow activityId startMin db date)) with
          | (.ok l, db2) =>
            (.ok (adhocRow activityId startMin db date :: l), db2)
          | (.error e, db2) => (.error e, db2) := rfl

/-- The loop of `CreateMultiple`, characterised against the pre-call rows
`occs0`: when the candidate dates are pairwise distinct, each date's
availability is unaffected by the rows the loop itself inserts (they live on
other dates), so the call succeeds and inserts exactly one row per kept
date. -/
theorem createMultipleLoop_characterization (est : Int → Option Nat)
    (now : Nat) (activityId : Int) (startMin endMin : Nat)
    (hsm : startMin < 1440) (occs0 : List Occ)
    (hest : ∀ o ∈ occs0, (est o.activityId).isSome = true) :
    ∀ (dates : List Nat), dates.Nodup → ∀ (db : Db),
      (∀ d ∈ dates, db.occs.filter (fun o => dateOf o.scheduledAt == d) =
          occs0.filter (fun o => dateOf o.scheduledAt == d)) →
      createMultipleLoop est now activityId startMin endMin dates db =
        (.ok (mkAdhocOccs activityId startMin db.nextOccId
            (dates.filter (adhocKept est now startMin endMin occs0))),
          { db with
            occs := db.occs ++ mkAdhocOccs activityId startMin db.nextOccId
              (dates.filter (adhocKept est now startMin endMin occs0)),
            nextOccId := db.nextOccId +
              (dates.filter (adhocKept est now startMin endMin occs0)).length }) := by
  intro dates
  induction dates with
  | nil =>
    intro _ db _
    simp [createMultipleLoop, mkAdhocOccs]
  | cons d rest ih =>
    intro hnd db hagree
    have hndr : rest.Nodup := (List.nodup_cons.mp hnd).2
    have hdnr : d ∉ rest := (List.nodup_cons.mp hnd).1
    have hchk : checkIfUserIsAvailable est db.occs d startMin endMin =
        checkIfUserIsAvailable est occs0 d startMin endMin :=
      checkIfUserIsAvailable_congr est db.occs occs0 d startMin endMin
        (hagree d (by simp))
    rw [createMultipleLoop_cons]
    by_cases hpast : d * 1440 < now
    · rw [if_pos hpast]
      have hkept : adhocKept est now startMin endMin occs0 d = false := by
        unfold adhocKept
        simp [hpast]
      rw [List.filter_cons_of_neg (by simp [hkept])]
      exact ih hndr db (fun d' hd' => hagree d' (by simp [hd']))
    · rw [if_neg hpast, hchk]
      rcases checkIfUserIsAvailable_ok est occs0 d startMin endMin
        (fun o ho _ => hest o ho) with hav | hav
      · rw [hav]
        have hkept : adhocKept est now startMin endMin occs0 d = true := by
          unfold adhocKept
          rw [hav]
          simp [hpast]
        have hagree1 : ∀ d' ∈ rest,
            (insertOcc db (adhocRow activityId startMin db d)).occs.filter
              (fun o => dateOf o.scheduledAt == d') =
            occs0.filter (fun o => dateOf o.scheduledAt == d') := by
          intro d' hd'
          show (db.occs ++ [adhocRow activityId startMin db d]).filter _ = _
          rw [filter_date_append]
          · exact hagree d' (by simp [hd'])
          · intro o ho
            rw [List.mem_singleton] at ho
            rw [ho]
            show dateOf (d * 1440 + startMin) ≠ d'
            have hne : d ≠ d' := fun h => hdnr (h ▸ hd')
            unfold dateOf
            omega
        rw [ih hndr _ hagree1]
        rw [List.filter_cons_of_pos (by simp [hkept])]
        show (Except.ok (adhocRow activityId startMin db d ::
            mkAdhocOccs activityId startMin (db.nextOccId + 1)
              (rest.filter (adhocKept est now startMin endMin occs0))),
          ({ db with
            occs := (db.occs ++ [adhocRow activityId startMin db d]) ++
              mkAdhocOccs activityId startMin (db.nextOccId + 1)
                (rest.filter (adhocKept est now startMin endMin occs0)),
            nextOccId := db.nextOccId + 1 +
              ((rest.filter (adhocKept est now startMin endMin occs0)).length :
                Int) } : Db)) =
          (Except.ok (mkAdhocOccs activityId startMin db.nextOccId
            (d :: rest.filter (adhocKept est now startMin endMin occs0))),
          ({ db with
            occs := db.occs ++ mkAdhocOccs activityId startMin db.nextOccId
              (d :: rest.filter (adhocKept est now startMin endMin occs0)),
            nextOccId := db.nextOccId +
              (((d :: rest.filter (adhocKept est now startMin endMin occs0)).length :
                Nat) : Int) } : Db))
        rw [show mkAdhocOccs activityId startMin db.nextOccId
            (d :: rest.filter (adhocKept est now startMin endMin occs0)) =
          adhocRow activityId startMin db d ::
            mkAdhocOccs activityId startMin (db.nextOccId + 1)
              (rest.filter (adhocKept est now startMin endMin occs0)) from rfl]
        rw [List.append_assoc, List.singleton_append]
        rw [show db.nextOccId + 1 +
            ((rest.filter (adhocKept est now startMin endMin occs0)).length :
              Int) =
          db.nextOccId +
            (((d :: rest.filter (adhocKept est now startMin endMin occs0)).length :
              Nat) : Int) from by
          simp only [List.length_cons]
          push_cast
          ring]
      · rw [hav]
        have hkept : adhocKept est now startMin endMin occs0 d = false := by
          unfold adhocKept
          rw [hav]
          simp
        rw [List.filter_cons_of_neg (by simp [hkept])]
        exact ih hndr db (fun d' hd' => hagree d' (by simp [hd']))

/-- The spec scenario store for `CreateMultiple`: one existing occurrence at
14:00 on day 10 (minute 15240), whose activity (id 1 under `exampleEst`)
resolves to 60 minutes, so it occupies 14:00-15:00. -/
def exCmDb : Db :=
  { occs := [{ id := 1, activityId := 1, isActive := true,
               scheduledAt := 15240, prefId := none }],
    parts := [], prefParts := [], nextOccId := 50 }

/-- C5: a successful `CreateMultiple` call over pairwise-distinct candidate
dates creates exactly one occurrence per date that is neither past nor
conflicting (judged against the pre-call rows — an inserted row never lands
on another candidate's date), appended in order with sequential ids, and each
past or conflicting date is silently omitted without failing the call: the
created rows' dates are exactly the kept dates. -/
theorem createMultiple_skips_and_creates (est : Int → Option Nat) (now : Nat)
    (activityId : Int) (startMin endMin : Nat) (dates : List Nat) (db : Db)
    (hsm : startMin < 1440)
    (hest : ∀ o ∈ db.occs, (est o.activityId).isSome = true)
    (hnd : dates.Nodup) :
    createMultiple est now activityId dates startMin endMin db =
      (.ok (mkAdhocOccs activityId startMin db.nextOccId
          (dates.filter (adhocKept est now startMin endMin db.occs))),
        { db with
          occs := db.occs ++ mkAdhocOccs activityId startMin db.nextOccId
            (dates.filter (adhocKept est now startMin endMin db.occs)),
          nextOccId := db.nextOccId +
            (dates.filter (adhocKept est now startMin endMin db.occs)).length }) ∧
    (mkAdhocOccs activityId startMin db.nextOccId
        (dates.filter (adhocKept est now startMin endMin db.occs))).map
      (fun o => dateOf o.scheduledAt) =
      dates.filter (adhocKept est now startMin endMin db.occs) :=
  ⟨createMultipleLoop_characterization est now activityId startMin endMin hsm
      db.occs hest dates hnd db (fun _ _ => rfl),
    map_dateOf_mkAdhocOccs activityId startMin hsm db.nextOccId _⟩

theorem createMultiple_skips_and_creates_witness :
    createMultiple exampleEst 0 1 [10, 11] 870 930 exCmDb =
      (.ok (mkAdhocOccs 1 870 exCmDb.nextOccId
          ([10, 11].filter (adhocKept exampleEst 0 870 930 exCmDb.occs))),
        { exCmDb with
          occs := exCmDb.occs ++ mkAdhocOccs 1 870 exCmDb.nextOccId
            ([10, 11].filter (adhocKept exampleEst 0 870 930 exCmDb.occs)),
          nextOccId := exCmDb.nextOccId +
            (([10, 11].filter
              (adhocKept exampleEst 0 870 930 exCmDb.occs)).length : Int) }) ∧
    (mkAdhocOccs 1 870 exCmDb.nextOccId
        ([10, 11].filter (adhocKept exampleEst 0 870 930 exCmDb.occs))).map
      (fun o => dateOf o.scheduledAt) =
      [10, 11].filter (adhocKept exampleEst 0 870 930 exCmDb.occs) :=
  createMultiple_skips_and_creates exampleEst 0 1 870 930 [10, 11] exCmDb
    (by decide) (by decide) (by decide)

end FriendSocial
